import Mathlib

/-!
Verification of the devsim protocol driver (`src/protobridge.rs`) and device
facade (`src/device.rs`).

The external cycle-stepped hardware model is reached only through the FFI
functions `QueryProtoBridgeDataStatus` and `ClockProtoBridge`; we embed it as
an abstract transition system `ChannelModel`: `status` reports the full/empty
flags without side effects, and `step s in? wantOut` advances the model by one
cycle, given the optional input byte whose pointer was passed (`in?`) and
whether an output slot pointer was passed (`wantOut`); it returns the next
model state and the byte written into the output slot (the Rust code
initialises that slot to 0, so an untouched slot reads as the model returning
0).  Bytes are `Nat` values (u8 contents), u64/u32 arithmetic is `Nat` with
explicit `% 2 ^ w` at the points where the Rust code casts or masks.
-/

namespace DevSim

/-- Embeds `struct DataStatus` (protobridge.rs): two C `u8` flags. -/
structure DataStatus where
  is_input_full : Nat
  is_output_empty : Nat

/-- Abstract model of the external hardware channel behind the FFI boundary:
`status` embeds `QueryProtoBridgeDataStatus`, `step` embeds
`ClockProtoBridge` (state σ, optional input byte, whether an output slot was
provided; result state and the byte left in the output slot). -/
structure ChannelModel (σ : Type) where
  status : σ → DataStatus
  step : σ → Option Nat → Bool → σ × Nat

/-- Embeds `struct ProtoBridge` (protobridge.rs): the opaque handle is the
channel-model state, `clocks` the u64 cycle counter, and the two `VecDeque<u8>`
FIFOs are lists with the front at the head. -/
structure ProtoBridge (σ : Type) where
  chan : σ
  clocks : Nat
  input_queue : List Nat
  output_queue : List Nat

/-- Error taxonomy visible in the embedded code paths: `timedOut` embeds the
`io::ErrorKind::TimedOut` error built in `wait_for_output`, `bufferTooSmall`
embeds `DeviceErrorKind::BufferTooSmall` (device.rs), and `shortRead` embeds
the panic branch of the read helpers (the expect with the failed-to-read
message). -/
inductive ErrKind where
  | timedOut
  | bufferTooSmall
  | shortRead
deriving DecidableEq

def WAIT_INFINITE_CYCLES : Nat := 0xffffffff

def CMD_ID_READ : Nat := 1

def CMD_ID_WRITE : Nat := 2

def REG_IDX_DEV_EN : Nat := 0

def REG_IDX_FB_ADDR : Nat := 1

def REG_IDX_FB_CONFIG : Nat := 2

/-- Embeds `ProtoBridge::build_cmd` (protobridge.rs line 82): the `u8`/`u32`
arguments are widened to u64 before masking, so on `Nat` the masks alone are
faithful. -/
def build_cmd (id addr size : Nat) : Nat :=
  ((id &&& 0xf) <<< 60) ||| ((addr &&& 0x3fffffff) <<< 30) ||| (size &&& 0x3fffffff)

/-- Embeds `ProtoBridge::build_reg_cmd` (protobridge.rs line 86): `idx << 2`
is a `u16` shift, hence the `% 2 ^ 16` before widening to u64. -/
def build_reg_cmd (id idx data : Nat) : Nat :=
  ((id &&& 0xf) <<< 60)
    ||| (((((idx <<< 2) % 2 ^ 16) ||| 0x3ffff000) &&& 0x3fffffff) <<< 30)
    ||| (data &&& 0x3fffffff)

/-- Embeds `ProtoBridge::clock` (protobridge.rs line 92): query status, pass
the front of the input queue iff the channel is not full, pass an output slot
iff the channel is not empty, then pop/push accordingly and bump the counter. -/
def clock {σ : Type} (M : ChannelModel σ) (b : ProtoBridge σ) : ProtoBridge σ :=
  let st := M.status b.chan
  let p_in : Option Nat := if st.is_input_full = 0 then b.input_queue.head? else none
  let wantOut : Bool := decide (st.is_output_empty = 0)
  let r := M.step b.chan p_in wantOut
  { chan := r.1
    clocks := b.clocks + 1
    input_queue := if p_in.isSome then b.input_queue.tail else b.input_queue
    output_queue := if wantOut then b.output_queue ++ [r.2] else b.output_queue }

/-- Iterated `clock`: `clockN M k b` drives exactly `k` cycles. -/
def clockN {σ : Type} (M : ChannelModel σ) : Nat → ProtoBridge σ → ProtoBridge σ
  | 0, b => b
  | k + 1, b => clockN M k (clock M b)

/-- Embeds the `for _wait_cycle_idx in 0..max_wait_cycles { self.clock(); if
self.output_queue.len() >= num_bytes { break; } }` loop body of
`wait_for_output`. -/
def waitLoop {σ : Type} (M : ChannelModel σ) (num_bytes : Nat) :
    Nat → ProtoBridge σ → ProtoBridge σ
  | 0, b => b
  | fuel + 1, b =>
    let b1 := clock M b
    if num_bytes ≤ b1.output_queue.length then b1 else waitLoop M num_bytes fuel b1

/-- Embeds `ProtoBridge::wait_for_output` (protobridge.rs line 124). -/
def wait_for_output {σ : Type} (M : ChannelModel σ) (b : ProtoBridge σ)
    (num_bytes max_wait_cycles : Nat) : ProtoBridge σ × Except ErrKind Nat :=
  let b1 :=
    if b.output_queue.length < num_bytes then waitLoop M num_bytes max_wait_cycles b else b
  if num_bytes ≤ b1.output_queue.length then (b1, Except.ok b1.output_queue.length)
  else (b1, Except.error ErrKind.timedOut)

/-- Little-endian byte decomposition; `leBytes 8 v` embeds `u64::to_le_bytes`
for `v < 2 ^ 64` (every built command word is). -/
def leBytes : Nat → Nat → List Nat
  | 0, _ => []
  | k + 1, v => v % 256 :: leBytes k (v / 256)

def u64LeBytes (v : Nat) : List Nat := leBytes 8 v

/-- Embeds `u32::from_le_bytes` on a 4-byte list. -/
def u32FromLeBytes (l : List Nat) : Nat :=
  l.getD 0 0 + l.getD 1 0 * 256 + l.getD 2 0 * 65536 + l.getD 3 0 * 16777216

/-- Embeds `impl io::Write for ProtoBridge`: `write_all` appends to the
pending-input queue and never fails. -/
def bwrite {σ : Type} (b : ProtoBridge σ) (buf : List Nat) : ProtoBridge σ :=
  { b with input_queue := b.input_queue ++ buf }

/-- Embeds `ProtoBridge::write_cmd` (protobridge.rs line 143). -/
def write_cmd {σ : Type} (b : ProtoBridge σ) (cmd : Nat) : ProtoBridge σ :=
  bwrite b (u64LeBytes cmd)

def cmd_read_bytes {σ : Type} (b : ProtoBridge σ) (addr size : Nat) : ProtoBridge σ :=
  write_cmd b (build_cmd CMD_ID_READ addr size)

def cmd_read_reg {σ : Type} (b : ProtoBridge σ) (idx : Nat) : ProtoBridge σ :=
  write_cmd b (build_reg_cmd CMD_ID_READ idx 0xffffffff)

def cmd_write_bytes {σ : Type} (b : ProtoBridge σ) (addr size : Nat) : ProtoBridge σ :=
  write_cmd b (build_cmd CMD_ID_WRITE addr size)

def cmd_write_reg {σ : Type} (b : ProtoBridge σ) (idx data : Nat) : ProtoBridge σ :=
  write_cmd b (build_reg_cmd CMD_ID_WRITE idx data)

/-- Embeds `ProtoBridge::write_bytes` (protobridge.rs line 165); the size
argument is the `buf.len() as u32` cast. -/
def write_bytes {σ : Type} (b : ProtoBridge σ) (addr : Nat) (buf : List Nat) : ProtoBridge σ :=
  bwrite (cmd_write_bytes b addr (buf.length % 2 ^ 32)) buf

/-- Embeds `ProtoBridge::write_reg` (protobridge.rs line 196). -/
def write_reg {σ : Type} (b : ProtoBridge σ) (idx data : Nat) : ProtoBridge σ :=
  cmd_write_reg b idx data

/-- Embeds `read_exact` on the output queue (via `impl io::Read`): if at least
`n` bytes are queued they are drained from the front in order; otherwise the
Rust caller panics via `expect`, embedded as `none`. Returns (bytes read,
remaining queue). -/
def readExact (n : Nat) (q : List Nat) : Option (List Nat × List Nat) :=
  if n ≤ q.length then some (q.take n, q.drop n) else none

/-- Embeds `ProtoBridge::read_bytes` (protobridge.rs line 171); result is
(bridge, final contents of `buf`, status). -/
def read_bytes {σ : Type} (M : ChannelModel σ) (b : ProtoBridge σ) (addr : Nat)
    (buf : List Nat) (max_wait_cycles : Nat) :
    ProtoBridge σ × List Nat × Except ErrKind Unit :=
  match wait_for_output M (cmd_read_bytes b addr (buf.length % 2 ^ 32)) buf.length
      max_wait_cycles with
  | (b2, Except.ok _) =>
    match readExact buf.length b2.output_queue with
    | some (bytes, rest) => ({ b2 with output_queue := rest }, bytes, Except.ok ())
    | none => (b2, buf, Except.error ErrKind.shortRead)
  | (b2, Except.error e) => (b2, buf, Except.error e)

/-- Embeds `ProtoBridge::read_reg` (protobridge.rs line 183). -/
def read_reg {σ : Type} (M : ChannelModel σ) (b : ProtoBridge σ) (idx max_wait_cycles : Nat) :
    ProtoBridge σ × Except ErrKind Nat :=
  match wait_for_output M (cmd_read_reg b idx) 4 max_wait_cycles with
  | (b2, Except.ok _) =>
    match readExact 4 b2.output_queue with
    | some (bytes, rest) => ({ b2 with output_queue := rest }, Except.ok (u32FromLeBytes bytes))
    | none => (b2, Except.error ErrKind.shortRead)
  | (b2, Except.error e) => (b2, Except.error e)

/-- Embeds `struct Device` (device.rs). -/
structure Device (σ : Type) where
  bridge : ProtoBridge σ

/-- Embeds `Device::enable` (device.rs line 88). -/
def enable {σ : Type} (d : Device σ) : Device σ :=
  ⟨write_reg d.bridge REG_IDX_DEV_EN 1⟩

/-- Embeds `Device::disable` (device.rs line 96). -/
def disable {σ : Type} (d : Device σ) : Device σ :=
  ⟨write_reg d.bridge REG_IDX_DEV_EN 0⟩

/-- Embeds `Device::query_framebuffer_size` (device.rs line 118). -/
def query_framebuffer_size {σ : Type} (M : ChannelModel σ) (d : Device σ) :
    Device σ × Except ErrKind (Nat × Nat) :=
  match read_reg M d.bridge REG_IDX_FB_CONFIG WAIT_INFINITE_CYCLES with
  | (b, Except.ok fb_config) =>
    (⟨b⟩, Except.ok (1 <<< ((fb_config &&& 0x7) + 1), 1 <<< (((fb_config >>> 3) &&& 0x7) + 1)))
  | (b, Except.error e) => (⟨b⟩, Except.error e)

/-- Embeds `Device::dump_framebuffer` (device.rs line 131); result is
(device, final contents of `dst`, status).  The u32 product
`fb_width * fb_height * 4` never wraps since both factors are at most 2^8. -/
def dump_framebuffer {σ : Type} (M : ChannelModel σ) (d : Device σ) (dst : List Nat) :
    Device σ × List Nat × Except ErrKind Unit :=
  match query_framebuffer_size M d with
  | (d1, Except.ok (fb_width, fb_height)) =>
    if fb_width * fb_height * 4 ≤ dst.length then
      match read_reg M d1.bridge REG_IDX_FB_ADDR WAIT_INFINITE_CYCLES with
      | (b2, Except.ok fb_addr) =>
        match read_bytes M b2 fb_addr dst WAIT_INFINITE_CYCLES with
        | (b3, dst1, r) => (⟨b3⟩, dst1, r)
      | (b2, Except.error e) => (⟨b2⟩, dst, Except.error e)
    else (d1, dst, Except.error ErrKind.bufferTooSmall)
  | (d1, Except.error e) => (d1, dst, Except.error e)

/-- Embeds the outcome of the FFI call `CreateProtoBridge(&mut handle)`: a u32
status code and the handle value it left behind (`handleIsNull` records whether
the handle still holds the `ptr::null_mut()` it was initialised to). -/
structure CreationOutcome where
  retCode : Nat
  handleIsNull : Bool

/-- A `ProtoBridge` as `ProtoBridge::new` actually returns it: the handle field
may still be null.  Only used to settle the construction claim. -/
structure RawProtoBridge where
  handleIsNull : Bool
  clocks : Nat
  input_queue : List Nat
  output_queue : List Nat
deriving DecidableEq

/-- Embeds `ProtoBridge::new` (protobridge.rs line 64): the status code
returned by `CreateProtoBridge` is discarded and the bridge is built over
whatever handle value the call left, with no failure path. -/
def ProtoBridge_new (c : CreationOutcome) : RawProtoBridge :=
  ⟨c.handleIsNull, 0, [], []⟩

/-- Modelled from the spec: the receiving hardware model (not under `src/`;
`third_party/protobridge` and `hw/`) processes a register Write command by
setting register `idx` of its register file to `data` (register map of spec
section 6). -/
def applyRegWrite (regs : Nat → Nat) (idx data : Nat) : Nat → Nat :=
  fun i => if i = idx then data else regs i

/-- Concrete channel for witnesses: never accepts input, never offers output. -/
def nullChannel : ChannelModel Unit :=
  ⟨fun _ => ⟨1, 1⟩, fun s _ _ => (s, 0)⟩

/-- Concrete channel for witnesses: always accepts (and discards) input, and
emits the bytes of its state list one per cycle. -/
def emitChannel : ChannelModel (List Nat) :=
  ⟨fun s => ⟨0, if s.isEmpty then 1 else 0⟩,
   fun s _ wantOut => if wantOut then (s.tail, s.headD 0) else (s, 0)⟩

/-- A freshly constructed bridge over channel state `c`. -/
def emptyBridge {σ : Type} (c : σ) : ProtoBridge σ :=
  ⟨c, 0, [], []⟩

/-! Helper lemmas -/

theorem clock_clocks {σ : Type} (M : ChannelModel σ) (b : ProtoBridge σ) :
    (clock M b).clocks = b.clocks + 1 := rfl

theorem clockN_succ {σ : Type} (M : ChannelModel σ) (k : Nat) (b : ProtoBridge σ) :
    clockN M (k + 1) b = clockN M k (clock M b) := rfl

theorem clockN_clocks {σ : Type} (M : ChannelModel σ) :
    ∀ (k : Nat) (b : ProtoBridge σ), (clockN M k b).clocks = b.clocks + k
  | 0, _ => rfl
  | k + 1, b => by rw [clockN_succ, clockN_clocks M k, clock_clocks]; omega

/-- The wait loop drives some number `k ≤ fuel` of cycles, never clocks past
the point where the queue first holds enough bytes, and runs the full budget
whenever it ends without enough bytes. -/
theorem waitLoop_spec {σ : Type} (M : ChannelModel σ) (n : Nat) :
    ∀ (fuel : Nat) (b : ProtoBridge σ),
      ∃ k, k ≤ fuel ∧ waitLoop M n fuel b = clockN M k b ∧
        (∀ j, 1 ≤ j → j < k → (clockN M j b).output_queue.length < n) ∧
        ((waitLoop M n fuel b).output_queue.length < n → k = fuel)
  | 0, _ =>
    ⟨0, Nat.le_refl 0, rfl, fun j _ h2 => absurd h2 (Nat.not_lt_zero j), fun _ => rfl⟩
  | fuel + 1, b => by
    by_cases h : n ≤ (clock M b).output_queue.length
    · have he : waitLoop M n (fuel + 1) b = clock M b := by
        simp [waitLoop, h]
      refine ⟨1, by omega, ?_, ?_, ?_⟩
      · rw [he]; rfl
      · intro j h1 h2; omega
      · intro hlt; rw [he] at hlt; omega
    · obtain ⟨k, hk, heq, hmin, hfull⟩ := waitLoop_spec M n fuel (clock M b)
      have he : waitLoop M n (fuel + 1) b = waitLoop M n fuel (clock M b) := by
        simp [waitLoop, h]
      refine ⟨k + 1, by omega, ?_, ?_, ?_⟩
      · rw [he, heq, clockN_succ]
      · intro j h1 h2
        rcases j with _ | j
        · omega
        · rw [clockN_succ]
          rcases Nat.eq_zero_or_pos j with hj | hj

          · subst hj
            show (clock M b).output_queue.length < n
            omega
          · exact hmin j hj (by omega)
      · intro hlt; rw [he] at hlt; have := hfull hlt; omega

theorem wait_eq {σ : Type} (M : ChannelModel σ) (b : ProtoBridge σ) (n max : Nat) :
    wait_for_output M b n max =
      if n ≤ (if b.output_queue.length < n then waitLoop M n max b
              else b).output_queue.length then
        ((if b.output_queue.length < n then waitLoop M n max b else b),
         Except.ok (if b.output_queue.length < n then waitLoop M n max b
                    else b).output_queue.length)
      else
        ((if b.output_queue.length < n then waitLoop M n max b else b),
         Except.error ErrKind.timedOut) := rfl

theorem wait_pos {σ : Type} (M : ChannelModel σ) (b : ProtoBridge σ) (n max : Nat)
    (h0 : b.output_queue.length < n) :
    wait_for_output M b n max =
      if n ≤ (waitLoop M n max b).output_queue.length then
        (waitLoop M n max b, Except.ok (waitLoop M n max b).output_queue.length)
      else (waitLoop M n max b, Except.error ErrKind.timedOut) := by
  rw [wait_eq]; simp [h0]

theorem wait_neg {σ : Type} (M : ChannelModel σ) (b : ProtoBridge σ) (n max : Nat)
    (h0 : ¬ b.output_queue.length < n) :
    wait_for_output M b n max = (b, Except.ok b.output_queue.length) := by
  have hle : n ≤ b.output_queue.length := by omega
  rw [wait_eq]; simp [h0, hle]

/-- A successful wait really left at least `n` bytes queued. -/
theorem wait_ok_len {σ : Type} (M : ChannelModel σ) (b : ProtoBridge σ) (n max m : Nat)
    (h : (wait_for_output M b n max).2 = Except.ok m) :
    n ≤ (wait_for_output M b n max).1.output_queue.length := by
  rw [wait_eq] at h ⊢
  by_cases hc :
      n ≤ (if b.output_queue.length < n then waitLoop M n max b else b).output_queue.length
  · rw [if_pos hc] at h ⊢; simpa using hc
  · rw [if_neg hc] at h; simp at h

/-- The only error `wait_for_output` produces is the timeout. -/
theorem wait_error_eq {σ : Type} (M : ChannelModel σ) (b : ProtoBridge σ) (n max : Nat)
    (e : ErrKind) (h : (wait_for_output M b n max).2 = Except.error e) :
    e = ErrKind.timedOut := by
  rw [wait_eq] at h
  by_cases hc :
      n ≤ (if b.output_queue.length < n then waitLoop M n max b else b).output_queue.length
  · rw [if_pos hc] at h; simp at h
  · rw [if_neg hc] at h; simp at h; exact h.symm

theorem shiftLeft_lor_eq_add (a b n : Nat) (h : b < 2 ^ n) :
    a <<< n ||| b = a * 2 ^ n + b := by
  rw [Nat.shiftLeft_eq]
  rw [show a * 2 ^ n = 2 ^ n * a from Nat.mul_comm a (2 ^ n)]
  exact (Nat.mul_add_lt_is_or h a).symm

theorem lor_and_self (x m : Nat) : (x ||| m) &&& m = m := by
  apply Nat.eq_of_testBit_eq
  intro i
  simp only [Nat.testBit_and, Nat.testBit_or]
  cases hm : m.testBit i <;> simp [hm]

theorem field_bound {A S : Nat} (hA : A < 2 ^ 30) (hS : S < 2 ^ 30) :
    A * 2 ^ 30 + S < 2 ^ 60 :=
  calc A * 2 ^ 30 + S < A * 2 ^ 30 + 2 ^ 30 := Nat.add_lt_add_left hS _
    _ = (A + 1) * 2 ^ 30 := by ring
    _ ≤ 2 ^ 30 * 2 ^ 30 := Nat.mul_le_mul_right _ (by omega)
    _ = 2 ^ 60 := by rw [← pow_add]

/-- The command word laid out arithmetically: op id in bits 60-63, address in
bits 30-59, size in bits 0-29, every field silently reduced mod its width. -/
theorem build_cmd_eq (id addr size : Nat) :
    build_cmd id addr size =
      (id % 2 ^ 4) * 2 ^ 60 + (addr % 2 ^ 30) * 2 ^ 30 + size % 2 ^ 30 := by
  have h4 : (0xf : Nat) = 2 ^ 4 - 1 := by norm_num
  have h30 : (0x3fffffff : Nat) = 2 ^ 30 - 1 := by norm_num
  have hm30 : addr % 2 ^ 30 < 2 ^ 30 := Nat.mod_lt _ (by norm_num)
  have hs30 : size % 2 ^ 30 < 2 ^ 30 := Nat.mod_lt _ (by norm_num)
  unfold build_cmd
  rw [h4, h30, Nat.and_pow_two_sub_one_eq_mod, Nat.and_pow_two_sub_one_eq_mod,
    Nat.and_pow_two_sub_one_eq_mod, Nat.or_assoc, shiftLeft_lor_eq_add _ _ 30 hs30,
    shiftLeft_lor_eq_add _ _ 60 (field_bound hm30 hs30), ← Nat.add_assoc]

/-- The register command word laid out arithmetically: op id in bits 60-63,
the sentinel-tagged index field in bits 30-59, data in bits 0-29. -/
theorem build_reg_cmd_eq (id idx data : Nat) :
    build_reg_cmd id idx data =
      (id % 2 ^ 4) * 2 ^ 60 + ((idx * 4 % 2 ^ 16) ||| 0x3ffff000) * 2 ^ 30
        + data % 2 ^ 30 := by
  have h4 : (0xf : Nat) = 2 ^ 4 - 1 := by norm_num
  have h30 : (0x3fffffff : Nat) = 2 ^ 30 - 1 := by norm_num
  have hidx4 : idx <<< 2 = idx * 4 := by rw [Nat.shiftLeft_eq]
  have hF : (idx * 4 % 2 ^ 16) ||| 0x3ffff000 < 2 ^ 30 :=
    Nat.or_lt_two_pow (lt_trans (Nat.mod_lt _ (by norm_num)) (by norm_num)) (by norm_num)
  have hd30 : data % 2 ^ 30 < 2 ^ 30 := Nat.mod_lt _ (by norm_num)
  unfold build_reg_cmd
  rw [hidx4, h4, h30, Nat.and_pow_two_sub_one_eq_mod, Nat.and_pow_two_sub_one_eq_mod,
    Nat.and_pow_two_sub_one_eq_mod, Nat.mod_eq_of_lt hF, Nat.or_assoc,
    shiftLeft_lor_eq_add _ _ 30 hd30,
    shiftLeft_lor_eq_add _ _ 60 (field_bound hF hd30), ← Nat.add_assoc]

/-- Extracting the middle and low 30-bit fields from the arithmetic layout. -/
theorem fields_extract {A F D : Nat} (hF : F < 2 ^ 30) (hD : D < 2 ^ 30) :
    ((A * 2 ^ 60 + F * 2 ^ 30 + D) >>> 30) % 2 ^ 30 = F ∧
    (A * 2 ^ 60 + F * 2 ^ 30 + D) % 2 ^ 30 = D := by
  have hstep : A * 2 ^ 60 + F * 2 ^ 30 + D = 2 ^ 30 * (A * 2 ^ 30 + F) + D := by ring
  constructor
  · rw [Nat.shiftRight_eq_div_pow, hstep, Nat.mul_add_div (by positivity),
      Nat.div_eq_of_lt hD, Nat.add_zero,
      show A * 2 ^ 30 + F = 2 ^ 30 * A + F from by ring, Nat.mul_add_mod,
      Nat.mod_eq_of_lt hF]
  · rw [hstep, Nat.mul_add_mod, Nat.mod_eq_of_lt hD]

/-! Claims -/

/-- C1: `wait_for_output(n, max_cycles)` drives cycles one at a time (some
`k ≤ max_cycles` iterations of `clock`, each taken only while the queue was
still short), returns the output-queue length on success, and on timeout has
driven exactly `max_cycles` cycles. -/
theorem claim1_wait_for_output {σ : Type} (M : ChannelModel σ) (b : ProtoBridge σ)
    (n max : Nat) :
    ∃ k, k ≤ max ∧
      (wait_for_output M b n max).1 = clockN M k b ∧
      (wait_for_output M b n max).1.clocks = b.clocks + k ∧
      (∀ j, j < k → (clockN M j b).output_queue.length < n) ∧
      ((n ≤ (wait_for_output M b n max).1.output_queue.length ∧
        (wait_for_output M b n max).2 =
          Except.ok (wait_for_output M b n max).1.output_queue.length) ∨
       ((wait_for_output M b n max).1.output_queue.length < n ∧
        (wait_for_output M b n max).2 = Except.error ErrKind.timedOut ∧
        k = max)) := by
  by_cases h0 : b.output_queue.length < n
  · obtain ⟨k, hk, heq, hmin, hfull⟩ := waitLoop_spec M n max b
    by_cases h1 : n ≤ (waitLoop M n max b).output_queue.length
    · have hw : wait_for_output M b n max =
          (waitLoop M n max b, Except.ok (waitLoop M n max b).output_queue.length) := by
        rw [wait_pos M b n max h0, if_pos h1]
      refine ⟨k, hk, ?_, ?_, ?_, Or.inl ⟨?_, ?_⟩⟩
      · rw [hw]; exact heq
      · rw [hw]; show (waitLoop M n max b).clocks = b.clocks + k
        rw [heq, clockN_clocks]
      · intro j hj
        rcases Nat.eq_zero_or_pos j with hj0 | hj1
        · subst hj0; exact h0
        · exact hmin j hj1 hj
      · rw [hw]; exact h1
      · rw [hw]
    · have hlt : (waitLoop M n max b).output_queue.length < n := by omega
      have hw : wait_for_output M b n max =
          (waitLoop M n max b, Except.error ErrKind.timedOut) := by
        rw [wait_pos M b n max h0, if_neg h1]
      refine ⟨k, hk, ?_, ?_, ?_, Or.inr ⟨?_, ?_, ?_⟩⟩
      · rw [hw]; exact heq
      · rw [hw]; show (waitLoop M n max b).clocks = b.clocks + k
        rw [heq, clockN_clocks]
      · intro j hj
        rcases Nat.eq_zero_or_pos j with hj0 | hj1
        · subst hj0; exact h0
        · exact hmin j hj1 hj
      · rw [hw]; exact hlt
      · rw [hw]
      · exact hfull hlt
  · have hw := wait_neg M b n max h0
    refine ⟨0, Nat.zero_le _, ?_, ?_, ?_, Or.inl ⟨?_, ?_⟩⟩
    · rw [hw]; rfl
    · rw [hw]; rfl
    · intro j hj; exact absurd hj (Nat.not_lt_zero j)
    · rw [hw]; exact Nat.le_of_not_lt h0
    · rw [hw]

/-- C2: each driven cycle consults the channel status; when the channel is not
full it pops the front pending-input byte and feeds exactly that byte to the
model; when it is full, or the queue is empty, the input queue is untouched;
when the channel is not empty the output byte of that cycle is appended at the back
of pending-output, otherwise that queue is untouched; the clock counter rises
by one unconditionally, and driving `N` cycles raises it by exactly `N`. -/
theorem claim2_clock {σ : Type} (M : ChannelModel σ) (b : ProtoBridge σ) :
    (clock M b).clocks = b.clocks + 1 ∧
    ((M.status b.chan).is_input_full = 0 → ∀ x xs, b.input_queue = x :: xs →
      (clock M b).input_queue = xs ∧
      (clock M b).chan =
        (M.step b.chan (some x) (decide ((M.status b.chan).is_output_empty = 0))).1) ∧
    (¬ ((M.status b.chan).is_input_full = 0 ∧ b.input_queue ≠ []) →
      (clock M b).input_queue = b.input_queue) ∧
    ((M.status b.chan).is_output_empty = 0 →
      (clock M b).output_queue = b.output_queue ++
        [(M.step b.chan
            (if (M.status b.chan).is_input_full = 0 then b.input_queue.head? else none)
            true).2]) ∧
    ((M.status b.chan).is_output_empty ≠ 0 → (clock M b).output_queue = b.output_queue) ∧
    (∀ N, (clockN M N b).clocks = b.clocks + N) := by
  refine ⟨rfl, ?_, ?_, ?_, ?_, fun N => clockN_clocks M N b⟩
  · intro hf x xs hq
    constructor
    · simp [clock, hf, hq]
    · simp [clock, hf, hq]
  · intro hni
    by_cases hf : (M.status b.chan).is_input_full = 0
    · have hq : b.input_queue = [] := by
        by_contra hne
        exact hni ⟨hf, hne⟩
      simp [clock, hf, hq]
    · simp [clock, hf]
  · intro ho
    simp [clock, ho]
  · intro ho
    simp [clock, ho]

/-- C3 counterexample: an address that does not fit the 30-bit subfield is
silently truncated — the encoder returns the very same command word as for
address 0, flagging nothing. -/
theorem claim3_counterexample :
    build_cmd CMD_ID_READ (2 ^ 30) 5 = build_cmd CMD_ID_READ 0 5 ∧
    build_cmd CMD_ID_READ (2 ^ 30) 5 = 0x1000000000000005 ∧
    (2 ^ 30 : Nat) ≠ 0 := by decide

/-- C3 amended: command encoding silently reduces the op id, address and size
mod their subfield widths (4, 30 and 30 bits) rather than flagging a contract
violation; in-range inputs are encoded with the operation id, address and size
placed exactly in their subfields. -/
theorem claim3_cmd_encoding (id addr size : Nat) :
    build_cmd id addr size =
      (id % 2 ^ 4) * 2 ^ 60 + (addr % 2 ^ 30) * 2 ^ 30 + size % 2 ^ 30 ∧
    (id < 2 ^ 4 → addr < 2 ^ 30 → size < 2 ^ 30 →
      build_cmd id addr size = id * 2 ^ 60 + addr * 2 ^ 30 + size) := by
  refine ⟨build_cmd_eq id addr size, fun h1 h2 h3 => ?_⟩
  rw [build_cmd_eq, Nat.mod_eq_of_lt h1, Nat.mod_eq_of_lt h2, Nat.mod_eq_of_lt h3]

/-- C5: `read_bytes` queues exactly one Read command sized to `buf.len()`,
waits for `buf.len()` bytes, on success drains exactly the first `buf.len()`
queued output bytes into the buffer in FIFO order (the buffer comes back
completely filled), and on timeout propagates the error unchanged with the
buffer untouched. -/
theorem claim5_read_bytes {σ : Type} (M : ChannelModel σ) (b : ProtoBridge σ)
    (addr : Nat) (buf : List Nat) (max : Nat) :
    (cmd_read_bytes b addr (buf.length % 2 ^ 32)).input_queue =
      b.input_queue ++ u64LeBytes (build_cmd CMD_ID_READ addr (buf.length % 2 ^ 32)) ∧
    (∀ m, (wait_for_output M (cmd_read_bytes b addr (buf.length % 2 ^ 32)) buf.length max).2
        = Except.ok m →
      read_bytes M b addr buf max =
        ({ (wait_for_output M (cmd_read_bytes b addr (buf.length % 2 ^ 32))
              buf.length max).1 with
            output_queue :=
              (wait_for_output M (cmd_read_bytes b addr (buf.length % 2 ^ 32))
                buf.length max).1.output_queue.drop buf.length },
         (wait_for_output M (cmd_read_bytes b addr (buf.length % 2 ^ 32))
            buf.length max).1.output_queue.take buf.length,
         Except.ok ()) ∧
      ((wait_for_output M (cmd_read_bytes b addr (buf.length % 2 ^ 32))
          buf.length max).1.output_queue.take buf.length).length = buf.length) ∧
    (∀ e, (wait_for_output M (cmd_read_bytes b addr (buf.length % 2 ^ 32)) buf.length max).2
        = Except.error e →
      read_bytes M b addr buf max =
        ((wait_for_output M (cmd_read_bytes b addr (buf.length % 2 ^ 32)) buf.length max).1,
         buf, Except.error e) ∧
      e = ErrKind.timedOut) := by
  refine ⟨rfl, ?_, ?_⟩
  · intro m hm
    have hlen := wait_ok_len M (cmd_read_bytes b addr (buf.length % 2 ^ 32)) buf.length max m hm
    have hw : wait_for_output M (cmd_read_bytes b addr (buf.length % 2 ^ 32)) buf.length max =
        ((wait_for_output M (cmd_read_bytes b addr (buf.length % 2 ^ 32)) buf.length max).1,
         Except.ok m) := Prod.ext rfl hm
    constructor
    · unfold read_bytes
      rw [hw]
      dsimp only
      unfold readExact
      rw [if_pos hlen]
    · rw [List.length_take]
      omega
  · intro e he
    have het := wait_error_eq M (cmd_read_bytes b addr (buf.length % 2 ^ 32)) buf.length max e he
    have hw : wait_for_output M (cmd_read_bytes b addr (buf.length % 2 ^ 32)) buf.length max =
        ((wait_for_output M (cmd_read_bytes b addr (buf.length % 2 ^ 32)) buf.length max).1,
         Except.error e) := Prod.ext rfl he
    refine ⟨?_, het⟩
    unfold read_bytes
    rw [hw]

/-- C10: a successful wait guarantees at least `n` bytes queued, so the
subsequent exact read always succeeds, draining the first `n` bytes in FIFO
order; the panic branch of `read_bytes` and `read_reg` (embedded as
`ErrKind.shortRead`) is unreachable. -/
theorem claim10_short_read_unreachable {σ : Type} (M : ChannelModel σ) (b : ProtoBridge σ)
    (n max addr idx : Nat) (buf : List Nat) :
    ((wait_for_output M b n max).2.isOk = true →
      readExact n (wait_for_output M b n max).1.output_queue =
        some ((wait_for_output M b n max).1.output_queue.take n,
              (wait_for_output M b n max).1.output_queue.drop n)) ∧
    (read_bytes M b addr buf max).2.2 ≠ Except.error ErrKind.shortRead ∧
    (read_reg M b idx max).2 ≠ Except.error ErrKind.shortRead := by
  refine ⟨?_, ?_, ?_⟩
  · intro hok
    obtain ⟨m, hm⟩ : ∃ m, (wait_for_output M b n max).2 = Except.ok m := by
      cases hr : (wait_for_output M b n max).2 with
      | error e => rw [hr] at hok; simp [Except.isOk, Except.toBool] at hok
      | ok m => exact ⟨m, rfl⟩
    have hlen := wait_ok_len M b n max m hm
    unfold readExact
    rw [if_pos hlen]
  · cases hr : (wait_for_output M (cmd_read_bytes b addr (buf.length % 2 ^ 32))
        buf.length max).2 with
    | error e =>
      have het := wait_error_eq M (cmd_read_bytes b addr (buf.length % 2 ^ 32))
        buf.length max e hr
      have hw : wait_for_output M (cmd_read_bytes b addr (buf.length % 2 ^ 32))
          buf.length max =
          ((wait_for_output M (cmd_read_bytes b addr (buf.length % 2 ^ 32))
            buf.length max).1, Except.error e) := Prod.ext rfl hr
      subst het
      unfold read_bytes
      rw [hw]
      simp
    | ok m =>
      have hlen := wait_ok_len M (cmd_read_bytes b addr (buf.length % 2 ^ 32))
        buf.length max m hr
      have hw : wait_for_output M (cmd_read_bytes b addr (buf.length % 2 ^ 32))
          buf.length max =
          ((wait_for_output M (cmd_read_bytes b addr (buf.length % 2 ^ 32))
            buf.length max).1, Except.ok m) := Prod.ext rfl hr
      unfold read_bytes
      rw [hw]
      dsimp only
      unfold readExact
      rw [if_pos hlen]
      simp
  · cases hr : (wait_for_output M (cmd_read_reg b idx) 4 max).2 with
    | error e =>
      have het := wait_error_eq M (cmd_read_reg b idx) 4 max e hr
      have hw : wait_for_output M (cmd_read_reg b idx) 4 max =
          ((wait_for_output M (cmd_read_reg b idx) 4 max).1, Except.error e) :=
        Prod.ext rfl hr
      subst het
      unfold read_reg
      rw [hw]
      simp
    | ok m =>
      have hlen := wait_ok_len M (cmd_read_reg b idx) 4 max m hr
      have hw : wait_for_output M (cmd_read_reg b idx) 4 max =
          ((wait_for_output M (cmd_read_reg b idx) 4 max).1, Except.ok m) :=
        Prod.ext rfl hr
      unfold read_reg
      rw [hw]
      simp [readExact, hlen]

/-- C4: given the framebuffer size query succeeds with `(w, h)`,
`dump_framebuffer(dst)` with `dst.len() < w*h*4` fails with BufferTooSmall
and returns `dst` untouched; with a large enough `dst` it reads the FB_ADDR
register and performs one bounded `read_bytes` of the full region into `dst`
(propagating a failed register read unchanged, `dst` untouched). -/
theorem claim4_dump_framebuffer {σ : Type} (M : ChannelModel σ) (d : Device σ)
    (dst : List Nat) (w h : Nat)
    (hq : (query_framebuffer_size M d).2 = Except.ok (w, h)) :
    (dst.length < w * h * 4 →
      dump_framebuffer M d dst =
        ((query_framebuffer_size M d).1, dst, Except.error ErrKind.bufferTooSmall)) ∧
    (w * h * 4 ≤ dst.length →
      (∀ a, (read_reg M (query_framebuffer_size M d).1.bridge REG_IDX_FB_ADDR
            WAIT_INFINITE_CYCLES).2 = Except.ok a →
        dump_framebuffer M d dst =
          (⟨(read_bytes M (read_reg M (query_framebuffer_size M d).1.bridge REG_IDX_FB_ADDR
                WAIT_INFINITE_CYCLES).1 a dst WAIT_INFINITE_CYCLES).1⟩,
           (read_bytes M (read_reg M (query_framebuffer_size M d).1.bridge REG_IDX_FB_ADDR
              WAIT_INFINITE_CYCLES).1 a dst WAIT_INFINITE_CYCLES).2.1,
           (read_bytes M (read_reg M (query_framebuffer_size M d).1.bridge REG_IDX_FB_ADDR
              WAIT_INFINITE_CYCLES).1 a dst WAIT_INFINITE_CYCLES).2.2)) ∧
      (∀ e, (read_reg M (query_framebuffer_size M d).1.bridge REG_IDX_FB_ADDR
            WAIT_INFINITE_CYCLES).2 = Except.error e →
        dump_framebuffer M d dst =
          (⟨(read_reg M (query_framebuffer_size M d).1.bridge REG_IDX_FB_ADDR
              WAIT_INFINITE_CYCLES).1⟩, dst, Except.error e))) := by
  have hqw : query_framebuffer_size M d =
      ((query_framebuffer_size M d).1, Except.ok (w, h)) := Prod.ext rfl hq
  constructor
  · intro hsmall
    have hns : ¬ w * h * 4 ≤ dst.length := by omega
    unfold dump_framebuffer
    rw [hqw]
    simp [hns]
  · intro hbig
    constructor
    · intro a ha
      have hra : read_reg M (query_framebuffer_size M d).1.bridge REG_IDX_FB_ADDR
          WAIT_INFINITE_CYCLES =
          ((read_reg M (query_framebuffer_size M d).1.bridge REG_IDX_FB_ADDR
            WAIT_INFINITE_CYCLES).1, Except.ok a) := Prod.ext rfl ha
      unfold dump_framebuffer
      rw [hqw]
      dsimp only
      rw [if_pos hbig, hra]
    · intro e he
      have hra : read_reg M (query_framebuffer_size M d).1.bridge REG_IDX_FB_ADDR
          WAIT_INFINITE_CYCLES =
          ((read_reg M (query_framebuffer_size M d).1.bridge REG_IDX_FB_ADDR
            WAIT_INFINITE_CYCLES).1, Except.error e) := Prod.ext rfl he
      unfold dump_framebuffer
      rw [hqw]
      dsimp only
      rw [if_pos hbig, hra]

/-- C4 witness: with a channel that answers the config read with 0 (so the
framebuffer needs 2*2*4 = 16 bytes) and an empty destination buffer, the dump
fails with BufferTooSmall and returns the buffer untouched. -/
theorem claim4_witness :
    dump_framebuffer emitChannel (⟨emptyBridge [0, 0, 0, 0]⟩ : Device (List Nat)) [] =
      ((query_framebuffer_size emitChannel (⟨emptyBridge [0, 0, 0, 0]⟩ : Device (List Nat))).1,
       [], Except.error ErrKind.bufferTooSmall) :=
  (claim4_dump_framebuffer emitChannel ⟨emptyBridge [0, 0, 0, 0]⟩ [] 2 2 (by rfl)).1
    (by decide)

/-- C6 counterexample: for the creation outcome in which `CreateProtoBridge`
reports a nonzero status and leaves the handle null, `ProtoBridge::new` still
returns a fully formed bridge over the null handle — no CreationFailure is
raised and construction does not stop. -/
theorem claim6_counterexample :
    ProtoBridge_new ⟨1, true⟩ =
      ({ handleIsNull := true, clocks := 0, input_queue := [],
         output_queue := [] } : RawProtoBridge) ∧
    (ProtoBridge_new ⟨1, true⟩).handleIsNull = true :=
  ⟨rfl, rfl⟩

/-- C6 amended: `ProtoBridge::new` discards the status code returned by
`CreateProtoBridge` and unconditionally returns a bridge (zero clocks, empty
queues) over whatever handle value the call left behind, a null handle
included; the bridge layer has no CreationFailure path. -/
theorem claim6_new (c : CreationOutcome) :
    ProtoBridge_new c = ⟨c.handleIsNull, 0, [], []⟩ := rfl

/-- C7 counterexample: the encoded register Read command (as built by
`cmd_read_reg`, which passes data `0xffffffff`) carries the all-ones 30-bit
pattern in its data subfield, not zero. -/
theorem claim7_counterexample :
    build_reg_cmd CMD_ID_READ 0 0xffffffff % 2 ^ 30 = 0x3fffffff ∧
    (0x3fffffff : Nat) ≠ 0 := by decide

/-- C7 amended: every register command word carries the reserved sentinel
pattern `0x3ffff000` (all bits set) in its address subfield, distinguishing
register ops from memory ops; for a register Read the data subfield is the
ignored all-ones pattern `0x3fffffff` (the masked `0xffffffff` argument), not
zero; `cmd_read_reg` queues exactly that word. -/
theorem claim7_reg_cmd (id idx data : Nat) :
    ((build_reg_cmd id idx data >>> 30) % 2 ^ 30) &&& 0x3ffff000 = 0x3ffff000 ∧
    build_reg_cmd CMD_ID_READ idx 0xffffffff % 2 ^ 30 = 0x3fffffff ∧
    (∀ (σ : Type) (b : ProtoBridge σ), cmd_read_reg b idx =
      { b with input_queue :=
          b.input_queue ++ u64LeBytes (build_reg_cmd CMD_ID_READ idx 0xffffffff) }) := by
  have hF : (idx * 4 % 2 ^ 16) ||| 0x3ffff000 < 2 ^ 30 :=
    Nat.or_lt_two_pow (lt_trans (Nat.mod_lt _ (by norm_num)) (by norm_num)) (by norm_num)
  refine ⟨?_, ?_, fun _ _ => rfl⟩
  · rw [build_reg_cmd_eq,
      (fields_extract hF (Nat.mod_lt _ (by norm_num) : data % 2 ^ 30 < 2 ^ 30)).1]
    exact lor_and_self _ _
  · rw [build_reg_cmd_eq,
      (fields_extract hF (Nat.mod_lt _ (by norm_num) : (0xffffffff : Nat) % 2 ^ 30 < 2 ^ 30)).2]
    norm_num

/-- C8: `query_framebuffer_size` decodes the config register value `c` into
`(2 ^ ((c &&& 7) + 1), 2 ^ (((c >>> 3) &&& 7) + 1))` — two independent 3-bit
exponent subfields; width-exponent 3 with height-exponent 4 yields (16, 32). -/
theorem claim8_query_framebuffer_size {σ : Type} (M : ChannelModel σ) (d : Device σ)
    (c : Nat)
    (hr : (read_reg M d.bridge REG_IDX_FB_CONFIG WAIT_INFINITE_CYCLES).2 = Except.ok c) :
    (query_framebuffer_size M d).2 =
      Except.ok (2 ^ ((c &&& 0x7) + 1), 2 ^ (((c >>> 3) &&& 0x7) + 1)) ∧
    (c &&& 0x7 = 3 → (c >>> 3) &&& 0x7 = 4 →
      (query_framebuffer_size M d).2 = Except.ok (16, 32)) := by
  rcases hrr : read_reg M d.bridge REG_IDX_FB_CONFIG WAIT_INFINITE_CYCLES with ⟨b, r⟩
  rw [hrr] at hr
  have hrc : r = Except.ok c := hr
  subst hrc
  constructor
  · simp [query_framebuffer_size, hrr, Nat.one_shiftLeft]
  · intro h1 h2
    simp [query_framebuffer_size, hrr, Nat.one_shiftLeft, h1, h2]

/-- C8 witness: a channel answering the config read with 35 (width-exponent
field 3, height-exponent field 4) makes the query return (16, 32). -/
theorem claim8_witness :
    (query_framebuffer_size emitChannel
      (⟨emptyBridge [35, 0, 0, 0]⟩ : Device (List Nat))).2 = Except.ok (16, 32) :=
  (claim8_query_framebuffer_size emitChannel ⟨emptyBridge [35, 0, 0, 0]⟩ 35 (by rfl)).2
    (by decide) (by decide)

/-- C9: `enable` and `disable` only queue the single register-write command
word (fire-and-forget: no cycle is driven, no output consumed), and at the
level of the receiving register file (modelled from the spec) repeating either
write is idempotent. -/
theorem claim9_enable_disable {σ : Type} (d : Device σ) (regs : Nat → Nat) :
    (enable d).bridge.input_queue =
      d.bridge.input_queue ++ u64LeBytes (build_reg_cmd CMD_ID_WRITE REG_IDX_DEV_EN 1) ∧
    (enable d).bridge.clocks = d.bridge.clocks ∧
    (enable d).bridge.output_queue = d.bridge.output_queue ∧
    (disable d).bridge.input_queue =
      d.bridge.input_queue ++ u64LeBytes (build_reg_cmd CMD_ID_WRITE REG_IDX_DEV_EN 0) ∧
    (disable d).bridge.clocks = d.bridge.clocks ∧
    (disable d).bridge.output_queue = d.bridge.output_queue ∧
    (∀ i, applyRegWrite (applyRegWrite regs REG_IDX_DEV_EN 1) REG_IDX_DEV_EN 1 i =
      applyRegWrite regs REG_IDX_DEV_EN 1 i) ∧
    (∀ i, applyRegWrite (applyRegWrite regs REG_IDX_DEV_EN 0) REG_IDX_DEV_EN 0 i =
      applyRegWrite regs REG_IDX_DEV_EN 0 i) := by
  refine ⟨rfl, rfl, rfl, rfl, rfl, rfl, ?_, ?_⟩ <;>
  · intro i
    unfold applyRegWrite
    by_cases hi : i = REG_IDX_DEV_EN <;> simp [hi]

end DevSim
